import Mathlib

/-!
Shallow embedding of the fb-video-api extraction pipeline.

The repository has two variants of the same server file:
src/index.js (per-pattern last-match extraction via getLastMatch) and
src/unnamed/part_000 (collect-all-then-pick-last extraction via
getAllMatches).  Everything outside the extractor is byte-identical in the
two files, so the strategies and the /api/extract handler are embedded once,
on top of the part_000 extractor, while the two extractors are embedded
separately (namespaces IndexJs and Part000) and related by a theorem.

JavaScript strings are modelled as lists of characters.  Network and
browser I/O is abstracted: a strategy takes the outcome of its awaited
fetch (a markup body, or a thrown error message) as a parameter.
-/

namespace FbVideoApi

/-- JavaScript strings, modelled as lists of characters. -/
abbrev JStr := List Char

/-- JS truthiness of a string-or-null value: null and the empty string are
falsy, every other string is truthy. -/
def isTruthy : Option JStr → Bool
  | none => false
  | some s => !s.isEmpty

/-- JS String.prototype.replace with a plain string pattern: only the first
occurrence of pat is replaced; with no occurrence the string is returned
unchanged; with an empty pattern JS prepends the replacement. -/
def replFirst (pat rep : JStr) : JStr → JStr
  | [] => if pat.isEmpty then rep else []
  | c :: rest =>
    if pat.isPrefixOf (c :: rest) then rep ++ (c :: rest).drop pat.length
    else c :: replFirst pat rep rest

/-- Worker for replAll.  Each recursive step consumes at least one character
of the subject string, so fuel equal to its length always suffices
(replAllAux_congr below makes the fuel irrelevance precise). -/
def replAllAux (pat rep : JStr) : Nat → JStr → JStr
  | 0, s => s
  | _ + 1, [] => []
  | fuel + 1, c :: rest =>
    if pat.isPrefixOf (c :: rest) && !pat.isEmpty then
      rep ++ replAllAux pat rep fuel ((c :: rest).drop pat.length)
    else
      c :: replAllAux pat rep fuel rest

/-- JS String.prototype.replace with a global regex whose body is a string
literal: every non-overlapping occurrence is replaced, scanning left to
right. -/
def replAll (pat rep s : JStr) : JStr := replAllAux pat rep s.length s

/-- cleanUrl of src/index.js and src/unnamed/part_000 without the null
guard: the six global replacements, in source order (percent, less-than,
greater-than, ampersand, escaped slash, escaped double quote). -/
def cleanChain (url : JStr) : JStr :=
  replAll "\\\"".data "\"".data
    (replAll "\\/".data "/".data
      (replAll "\\u0026".data "&".data
        (replAll "\\u003E".data ">".data
          (replAll "\\u003C".data "<".data
            (replAll "\\u0025".data "%".data url)))))

/-- cleanUrl: returns null for a falsy (empty) input, otherwise unescapes
the six escape forms. -/
def cleanUrl (url : JStr) : Option JStr :=
  if url.isEmpty then none else some (cleanChain url)

/-- normalizeUrl: three host rewrites followed by the share-path rewrite,
each a first-occurrence string replace, in source order. -/
def normalizeUrl (link : JStr) : JStr :=
  replFirst "/share/v/".data "/reel/".data
    (replFirst "://touch.facebook.com/".data "://www.facebook.com/".data
      (replFirst "://web.facebook.com/".data "://www.facebook.com/".data
        (replFirst "://m.facebook.com/".data "://www.facebook.com/".data link)))

/-- JS String.prototype.includes: pat occurs somewhere in the subject. -/
def containsSub (pat : JStr) : JStr → Bool
  | [] => pat.isEmpty
  | c :: rest => pat.isPrefixOf (c :: rest) || containsSub pat rest

/-- The whitespace class matched by the regex escape backslash-s in JS:
space, tab, line feed, vertical tab, form feed, carriage return, no-break
space, ogham space mark, the en-quad through hair-space range, line and
paragraph separators, narrow no-break space, medium mathematical space,
ideographic space, and the byte order mark. -/
def isJsSpace (c : Char) : Bool :=
  c == ' ' || c == '\t' || c == '\n' ||
  decide (c.toNat = 0x0b) || decide (c.toNat = 0x0c) || c == '\r' ||
  decide (c.toNat = 0xa0) || decide (c.toNat = 0x1680) ||
  (decide (0x2000 ≤ c.toNat) && decide (c.toNat ≤ 0x200a)) ||
  decide (c.toNat = 0x2028) || decide (c.toNat = 0x2029) ||
  decide (c.toNat = 0x202f) || decide (c.toNat = 0x205f) ||
  decide (c.toNat = 0x3000) || decide (c.toNat = 0xfeff)

/-- Strip an expected literal from the front of s, or fail. -/
def dropLit? : JStr → JStr → Option JStr
  | [], s => some s
  | _ :: _, [] => none
  | p :: ps, c :: cs => if p == c then dropLit? ps cs else none

/-- One candidate position of the regex scan: try to match
lit whitespace* colon whitespace* quote capture quote at the start of s,
where the capture is one or more characters other than a double quote
(greedy, exactly the class of the source regexes).  Returns the raw capture
and the remainder of s after the whole match. -/
def matchKeyValAt (lit s : JStr) : Option (JStr × JStr) :=
  match dropLit? lit s with
  | none => none
  | some s1 =>
    match s1.dropWhile isJsSpace with
    | ':' :: s3 =>
      match s3.dropWhile isJsSpace with
      | '"' :: s5 =>
        match s5.dropWhile (fun c => c != '"') with
        | '"' :: s7 =>
          if (s5.takeWhile (fun c => c != '"')).isEmpty then none
          else some (s5.takeWhile (fun c => c != '"'), s7)
        | _ => none
      | _ => none
    | _ => none

/-- Worker for scanCaptures.  Every iteration consumes at least one
character (a successful match consumes at least the colon, the two quotes
and one capture character), so fuel equal to the length of the subject
always suffices; scanCapturesAux_congr below makes this precise. -/
def scanCapturesAux (lit : JStr) : Nat → JStr → List JStr
  | 0, _ => []
  | _ + 1, [] => []
  | fuel + 1, c :: rest =>
    match matchKeyValAt lit (c :: rest) with
    | some (cap, r) => cap :: scanCapturesAux lit fuel r
    | none => scanCapturesAux lit fuel rest

/-- All first capture groups of the global regex scan over s, in document
order: JS String.prototype.matchAll in src/index.js, the repeated
regex.exec loop in src/unnamed/part_000. -/
def scanCaptures (lit s : JStr) : List JStr := scanCapturesAux lit s.length s

/-- The key literal of the first high-quality pattern. -/
def hdPat1 : JStr := "\"playable_url_quality_hd\"".data

/-- The key literal of the second high-quality pattern. -/
def hdPat2 : JStr := "\"browser_native_hd_url\"".data

/-- The key literal of the third (legacy, unquoted) high-quality pattern. -/
def hdPat3 : JStr := "hd_src".data

/-- The key literal of the first standard-quality pattern. -/
def sdPat1 : JStr := "\"playable_url\"".data

/-- The key literal of the second standard-quality pattern. -/
def sdPat2 : JStr := "\"browser_native_sd_url\"".data

/-- The key literal of the third (legacy, unquoted) standard-quality pattern. -/
def sdPat3 : JStr := "sd_src".data

/-- The pair returned by extractVideoUrlsFromHtml: either or both fields may
be null. -/
structure MediaLinkSet where
  hdUrl : Option JStr
  sdUrl : Option JStr
deriving DecidableEq, Repr

namespace IndexJs

/-- getLastMatch of src/index.js: all matches of the global regex, then the
cleaned capture of the last one; null when there is no match. -/
def getLastMatch (html pat : JStr) : Option JStr :=
  match (scanCaptures pat html).getLast? with
  | some m => cleanUrl m
  | none => none

/-- extractVideoUrlsFromHtml of src/index.js: per tier, try the three
patterns in source order, moving on while the current value is falsy. -/
def extractVideoUrlsFromHtml (html : JStr) : MediaLinkSet :=
  let hd0 := getLastMatch html hdPat1
  let hd1 := if isTruthy hd0 then hd0 else getLastMatch html hdPat2
  let hd2 := if isTruthy hd1 then hd1 else getLastMatch html hdPat3
  let sd0 := getLastMatch html sdPat1
  let sd1 := if isTruthy sd0 then sd0 else getLastMatch html sdPat2
  let sd2 := if isTruthy sd1 then sd1 else getLastMatch html sdPat3
  { hdUrl := hd2, sdUrl := sd2 }

end IndexJs

namespace Part000

/-- getAllMatches of src/unnamed/part_000: every match of the global regex,
keeping the cleaned capture whenever it is truthy.  The source also records
the match index alongside the url, but no caller ever reads it, so only the
cleaned url is kept here. -/
def getAllMatches (html pat : JStr) : List JStr :=
  (scanCaptures pat html).filterMap (fun m =>
    match cleanUrl m with
    | some s => if s.isEmpty then none else some s
    | none => none)

/-- extractVideoUrlsFromHtml of src/unnamed/part_000: per tier, collect all
matches of the first pattern with a non-empty match list, then pick the
last occurrence of that list (null when all three lists are empty). -/
def extractVideoUrlsFromHtml (html : JStr) : MediaLinkSet :=
  let allHd0 := getAllMatches html hdPat1
  let allHd1 := if allHd0.length = 0 then getAllMatches html hdPat2 else allHd0
  let allHd := if allHd1.length = 0 then getAllMatches html hdPat3 else allHd1
  let allSd0 := getAllMatches html sdPat1
  let allSd1 := if allSd0.length = 0 then getAllMatches html sdPat2 else allSd0
  let allSd := if allSd1.length = 0 then getAllMatches html sdPat3 else allSd1
  { hdUrl := allHd.getLast?, sdUrl := allSd.getLast? }

end Part000

/-- Outcome of one awaited network or browser navigation step: a markup
body, or a thrown exception carrying a message (got throws on network
errors, timeouts and non-2xx responses; puppeteer on launch and navigation
failures). -/
inductive FetchOutcome where
  | ok (body : JStr)
  | thrown (msg : JStr)
deriving DecidableEq, Repr

/-- The object a strategy resolves with on success. -/
structure StrategyResult where
  success : Bool
  hdUrl : Option JStr
  sdUrl : Option JStr
  method : JStr
deriving DecidableEq, Repr

/-- extractViaHttp: the outbound got request for the normalized url is
abstracted by the resp parameter (its body on 2xx, its thrown error
otherwise).  On a body, run the extractor; resolve with the result object
when at least one field is truthy, with null otherwise. -/
def extractViaHttp (resp : FetchOutcome) : Except JStr (Option StrategyResult) :=
  match resp with
  | .thrown msg => .error msg
  | .ok body =>
    let r := Part000.extractVideoUrlsFromHtml body
    if isTruthy r.hdUrl || isTruthy r.sdUrl then
      .ok (some { success := true, hdUrl := r.hdUrl, sdUrl := r.sdUrl, method := "http".data })
    else .ok none

/-- extractViaPuppeteer: the browser launch, navigation, settle delay and
page.content read are abstracted by the page parameter (the rendered markup,
or the thrown launch/navigation error).  The body mirrors extractViaHttp
with the puppeteer method tag. -/
def extractViaPuppeteer (page : FetchOutcome) : Except JStr (Option StrategyResult) :=
  match page with
  | .thrown msg => .error msg
  | .ok html =>
    let r := Part000.extractVideoUrlsFromHtml html
    if isTruthy r.hdUrl || isTruthy r.sdUrl then
      .ok (some { success := true, hdUrl := r.hdUrl, sdUrl := r.sdUrl, method := "puppeteer".data })
    else .ok none

deriving instance DecidableEq for Except

/-- The JSON body and status of one /api/extract response. -/
structure ApiResponse where
  status : Nat
  success : Bool
  error : Option JStr
  hd_url : Option JStr
  sd_url : Option JStr
  url : Option JStr
  method : Option JStr
  duration_ms : Option Nat
deriving DecidableEq, Repr

/-- A handler run: the response together with how many times each strategy
was invoked. -/
structure HandlerTrace where
  response : ApiResponse
  httpCalls : Nat
  puppeteerCalls : Nat
deriving DecidableEq, Repr

/-- The 400 response for a missing (or falsy) url query parameter. -/
def resp400Missing : ApiResponse :=
  { status := 400, success := false,
    error := some "Missing required parameter: url".data,
    hd_url := none, sd_url := none, url := none, method := none,
    duration_ms := none }

/-- The 400 response for a url without a recognized site domain token. -/
def resp400Invalid : ApiResponse :=
  { status := 400, success := false,
    error := some "Invalid URL: Must be a Facebook video URL".data,
    hd_url := none, sd_url := none, url := none, method := none,
    duration_ms := none }

/-- The 200 response shaped from a strategy result: each tier field is
re-checked for truthiness (the x-or-null idiom) and the convenience url
field prefers the high-quality link. -/
def resp200 (result : StrategyResult) (duration : Nat) : ApiResponse :=
  { status := 200, success := true, error := none,
    hd_url := if isTruthy result.hdUrl then result.hdUrl else none,
    sd_url := if isTruthy result.sdUrl then result.sdUrl else none,
    url := if isTruthy result.hdUrl then result.hdUrl else result.sdUrl,
    method := some result.method,
    duration_ms := some duration }

/-- The 500 response produced by the catch-all with the caught message. -/
def resp500 (msg : JStr) (duration : Nat) : ApiResponse :=
  { status := 500, success := false, error := some msg,
    hd_url := none, sd_url := none, url := none, method := none,
    duration_ms := some duration }

/-- The 404 response when both strategies complete and neither resolves
with a result. -/
def resp404 (duration : Nat) : ApiResponse :=
  { status := 404, success := false,
    error := some "Could not extract video URL. The video may be private or deleted.".data,
    hd_url := none, sd_url := none, url := none, method := none,
    duration_ms := some duration }

/-- The GET /api/extract handler of both server files.  urlParam is the
query parameter, direct and rendered are the abstracted I/O outcomes seen
by the two strategies, duration the measured wall-clock time.  The whole
strategy sequence sits inside one try block whose catch produces the 500
response, so an exception thrown by either strategy reaches the catch-all
directly. -/
def apiExtract (urlParam : Option JStr) (direct rendered : FetchOutcome)
    (duration : Nat) : HandlerTrace :=
  match urlParam with
  | none =>
    { response := resp400Missing, httpCalls := 0, puppeteerCalls := 0 }
  | some u =>
    if u.isEmpty then
      { response := resp400Missing, httpCalls := 0, puppeteerCalls := 0 }
    else if !(containsSub "facebook.com".data u || containsSub "fb.com".data u) then
      { response := resp400Invalid, httpCalls := 0, puppeteerCalls := 0 }
    else
      match extractViaHttp direct with
      | .error e =>
        { response := resp500 e duration, httpCalls := 1, puppeteerCalls := 0 }
      | .ok (some result) =>
        { response := resp200 result duration, httpCalls := 1, puppeteerCalls := 0 }
      | .ok none =>
        match extractViaPuppeteer rendered with
        | .error e =>
          { response := resp500 e duration, httpCalls := 1, puppeteerCalls := 1 }
        | .ok (some result) =>
          { response := resp200 result duration, httpCalls := 1, puppeteerCalls := 1 }
        | .ok none =>
          { response := resp404 duration, httpCalls := 1, puppeteerCalls := 1 }

/-- pat disagrees with t at some index below the length of both: a match of
pat starting where t starts is then impossible however t is extended. -/
def mismatchWithin : JStr → JStr → Bool
  | p :: ps, c :: cs => (p != c) || mismatchWithin ps cs
  | _, _ => false

/-- Every nonempty suffix of x disagrees with pat within x itself, so no
match of pat can start inside x, whatever follows x. -/
def boundaryOk (pat : JStr) : JStr → Bool
  | [] => true
  | c :: rest => mismatchWithin pat (c :: rest) && boundaryOk pat rest

/-- x contains no backslash character. -/
def bsFree (x : JStr) : Bool := x.all (fun c => c != '\\')

theorem isPrefixOf_eq_false_of_mismatchWithin :
    ∀ (pat t b : JStr), mismatchWithin pat t = true → pat.isPrefixOf (t ++ b) = false
  | [], t, _, h => by cases t <;> simp [mismatchWithin] at h
  | _ :: _, [], _, h => by simp [mismatchWithin] at h
  | p :: ps, c :: cs, b, h => by
    simp only [mismatchWithin, Bool.or_eq_true] at h
    simp only [List.cons_append, List.isPrefixOf, Bool.and_eq_false_iff]
    rcases h with h | h
    · left
      simpa [bne_iff_ne, BEq.comm] using h
    · right
      exact isPrefixOf_eq_false_of_mismatchWithin ps cs b h

theorem isPrefixOf_eq_false_of_mismatchWithin_nil (pat t : JStr)
    (h : mismatchWithin pat t = true) : pat.isPrefixOf t = false := by
  have h2 := isPrefixOf_eq_false_of_mismatchWithin pat t [] h
  rw [List.append_nil] at h2
  exact h2

theorem isPrefixOf_append_self : ∀ (p y : JStr), p.isPrefixOf (p ++ y) = true
  | [], _ => by simp [List.isPrefixOf]
  | p :: ps, y => by
    simp only [List.cons_append, List.isPrefixOf, Bool.and_eq_true]
    exact ⟨by simp, isPrefixOf_append_self ps y⟩

theorem drop_length_append : ∀ (p y : JStr), (p ++ y).drop p.length = y
  | [], _ => rfl
  | _ :: ps, y => by
    simp only [List.cons_append, List.length_cons, List.drop_succ_cons]
    exact drop_length_append ps y

theorem boundaryOk_of_all_ne (p0 : Char) (pr : JStr) :
    ∀ (x : JStr), x.all (fun c => c != p0) = true → boundaryOk (p0 :: pr) x = true
  | [], _ => rfl
  | c :: xs, h => by
    simp only [List.all_cons, Bool.and_eq_true] at h
    simp only [boundaryOk, mismatchWithin, Bool.and_eq_true, Bool.or_eq_true]
    refine ⟨Or.inl ?_, boundaryOk_of_all_ne p0 pr xs h.2⟩
    have hne : c ≠ p0 := bne_iff_ne.mp h.1
    exact bne_iff_ne.mpr (Ne.symm hne)

theorem boundaryOk_append (p0 : Char) (pr : JStr) :
    ∀ (x y : JStr), x.all (fun c => c != p0) = true →
      boundaryOk (p0 :: pr) y = true → boundaryOk (p0 :: pr) (x ++ y) = true
  | [], _, _, hy => hy
  | c :: xs, y, hx, hy => by
    simp only [List.all_cons, Bool.and_eq_true] at hx
    simp only [List.cons_append, boundaryOk, mismatchWithin, Bool.and_eq_true,
      Bool.or_eq_true]
    refine ⟨Or.inl ?_, boundaryOk_append p0 pr xs y hx.2 hy⟩
    have hne : c ≠ p0 := bne_iff_ne.mp hx.1
    exact bne_iff_ne.mpr (Ne.symm hne)

theorem containsSub_append_eq_false (pat : JStr) :
    ∀ (x b : JStr), boundaryOk pat x = true → containsSub pat b = false →
      containsSub pat (x ++ b) = false
  | [], _, _, hb => hb
  | c :: xs, b, hx, hb => by
    simp only [boundaryOk, Bool.and_eq_true] at hx
    simp only [List.cons_append, containsSub, Bool.or_eq_false_iff]
    have h1 := isPrefixOf_eq_false_of_mismatchWithin pat (c :: xs) b hx.1
    simp only [List.cons_append] at h1
    exact ⟨h1, containsSub_append_eq_false pat xs b hx.2 hb⟩

theorem replFirst_eq_self_of_not_contains (pat rep : JStr) :
    ∀ (s : JStr), containsSub pat s = false → replFirst pat rep s = s
  | [], h => by
    rw [containsSub] at h
    rw [replFirst, if_neg (by simp [h])]
  | c :: rest, h => by
    rw [containsSub, Bool.or_eq_false_iff] at h
    rw [replFirst, if_neg (by simp [h.1]),
      replFirst_eq_self_of_not_contains pat rep rest h.2]

theorem replFirst_append_of_boundaryOk (pat rep : JStr) :
    ∀ (x b : JStr), boundaryOk pat x = true →
      replFirst pat rep (x ++ b) = x ++ replFirst pat rep b
  | [], _, _ => rfl
  | c :: xs, b, hx => by
    rw [boundaryOk, Bool.and_eq_true] at hx
    have h1 := isPrefixOf_eq_false_of_mismatchWithin pat (c :: xs) b hx.1
    rw [List.cons_append] at h1
    rw [List.cons_append, replFirst, if_neg (by simp [h1]),
      replFirst_append_of_boundaryOk pat rep xs b hx.2, List.cons_append]

theorem replFirst_append_fire (pat rep y : JStr) (hp : pat ≠ []) :
    replFirst pat rep (pat ++ y) = rep ++ y := by
  cases pat with
  | nil => exact absurd rfl hp
  | cons p ps =>
    have h1 := isPrefixOf_append_self (p :: ps) y
    rw [List.cons_append] at h1
    have h2 := drop_length_append (p :: ps) y
    rw [List.cons_append] at h2
    rw [List.cons_append, replFirst, if_pos h1, h2]

theorem replAllAux_congr (pat rep : JStr) :
    ∀ (f1 f2 : Nat) (s : JStr), s.length ≤ f1 → s.length ≤ f2 →
      replAllAux pat rep f1 s = replAllAux pat rep f2 s := by
  intro f1
  induction f1 with
  | zero =>
    intro f2 s h1 _
    have hs : s = [] := List.eq_nil_of_length_eq_zero (Nat.le_zero.mp h1)
    subst hs
    cases f2 <;> rfl
  | succ n ih =>
    intro f2 s h1 h2
    cases s with
    | nil => cases f2 <;> rfl
    | cons c rest =>
      cases f2 with
      | zero => simp at h2
      | succ m =>
        rw [List.length_cons, Nat.succ_le_succ_iff] at h1 h2
        rw [replAllAux, replAllAux]
        by_cases hc : (pat.isPrefixOf (c :: rest) && !pat.isEmpty) = true
        · rw [if_pos hc, if_pos hc]
          have hplen : 1 ≤ pat.length := by
            rcases Bool.and_eq_true_iff.mp hc with ⟨_, hne⟩
            cases pat with
            | nil => simp at hne
            | cons p ps => simp
          have hdlen : ((c :: rest).drop pat.length).length ≤ rest.length := by
            rw [List.length_drop, List.length_cons]
            omega
          exact congrArg (rep ++ ·) (ih m ((c :: rest).drop pat.length)
            (le_trans hdlen h1) (le_trans hdlen h2))
        · rw [if_neg hc, if_neg hc]
          exact congrArg (c :: ·) (ih m rest h1 h2)

theorem replAll_nil (pat rep : JStr) : replAll pat rep [] = [] := rfl

theorem replAllAux_append (pat rep : JStr) :
    ∀ (x b : JStr) (f : Nat), boundaryOk pat x = true → (x ++ b).length ≤ f →
      replAllAux pat rep f (x ++ b) = x ++ replAll pat rep b := by
  intro x
  induction x with
  | nil =>
    intro b f _ hf
    rw [List.nil_append] at hf ⊢
    rw [List.nil_append]
    exact replAllAux_congr pat rep f b.length b hf le_rfl
  | cons c xs ih =>
    intro b f hx hf
    rw [boundaryOk, Bool.and_eq_true] at hx
    have h1 := isPrefixOf_eq_false_of_mismatchWithin pat (c :: xs) b hx.1
    rw [List.cons_append] at h1
    rw [List.cons_append] at hf ⊢
    cases f with
    | zero => simp at hf
    | succ n =>
      rw [List.length_cons, Nat.succ_le_succ_iff] at hf
      rw [replAllAux, if_neg (by simp [h1]), List.cons_append]
      exact congrArg (c :: ·) (ih b n hx.2 hf)

theorem replAll_append_of_boundaryOk (pat rep x b : JStr)
    (hx : boundaryOk pat x = true) :
    replAll pat rep (x ++ b) = x ++ replAll pat rep b :=
  replAllAux_append pat rep x b (x ++ b).length hx le_rfl

theorem replAll_append_fire (pat rep y : JStr) (hp : pat ≠ []) :
    replAll pat rep (pat ++ y) = rep ++ replAll pat rep y := by
  cases pat with
  | nil => exact absurd rfl hp
  | cons p ps =>
    have h1 := isPrefixOf_append_self (p :: ps) y
    rw [List.cons_append] at h1
    have h2 := drop_length_append (p :: ps) y
    rw [List.cons_append] at h2
    rw [replAll, List.cons_append, List.length_cons, replAllAux,
      if_pos (by simp [h1]), h2]
    refine congrArg (rep ++ ·)
      (replAllAux_congr (p :: ps) rep (ps ++ y).length y.length y ?_ le_rfl)
    rw [List.length_append]
    omega

theorem replAll_eq_self_of_boundaryOk (pat rep x : JStr)
    (hx : boundaryOk pat x = true) : replAll pat rep x = x := by
  have h := replAll_append_of_boundaryOk pat rep x [] hx
  rw [List.append_nil, replAll_nil, List.append_nil] at h
  exact h

theorem replAll_ne_nil (pat rep : JStr) (hrep : rep ≠ []) :
    ∀ s : JStr, s ≠ [] → replAll pat rep s ≠ [] := by
  intro s hs
  rw [replAll]
  cases s with
  | nil => exact absurd rfl hs
  | cons c rest =>
    rw [List.length_cons, replAllAux]
    by_cases hc : (pat.isPrefixOf (c :: rest) && !pat.isEmpty) = true
    · rw [if_pos hc]
      intro h
      exact hrep (List.append_eq_nil.mp h).1
    · rw [if_neg hc]
      simp

theorem cleanChain_ne_nil (s : JStr) (hs : s ≠ []) : cleanChain s ≠ [] := by
  unfold cleanChain
  refine replAll_ne_nil _ _ (by decide) _ ?_
  refine replAll_ne_nil _ _ (by decide) _ ?_
  refine replAll_ne_nil _ _ (by decide) _ ?_
  refine replAll_ne_nil _ _ (by decide) _ ?_
  refine replAll_ne_nil _ _ (by decide) _ ?_
  exact replAll_ne_nil _ _ (by decide) _ hs

theorem cleanUrl_eq_some (s : JStr) (hs : s ≠ []) :
    cleanUrl s = some (cleanChain s) := by
  have h : s.isEmpty = false := by
    cases s with
    | nil => exact absurd rfl hs
    | cons c l => rfl
  simp [cleanUrl, h]

theorem matchKeyValAt_cap_ne_nil (lit s cap r : JStr)
    (h : matchKeyValAt lit s = some (cap, r)) : cap ≠ [] := by
  unfold matchKeyValAt at h
  split at h
  · exact Option.noConfusion h
  · split at h
    · split at h
      · split at h
        · split at h
          · exact Option.noConfusion h
          · rename_i hemp
            cases h
            intro hnil
            rw [hnil] at hemp
            exact hemp rfl
        · exact Option.noConfusion h
      · exact Option.noConfusion h
    · exact Option.noConfusion h

theorem scanCapturesAux_mem_ne_nil (lit : JStr) :
    ∀ (fuel : Nat) (s m : JStr), m ∈ scanCapturesAux lit fuel s → m ≠ [] := by
  intro fuel
  induction fuel with
  | zero =>
    intro s m hm
    simp [scanCapturesAux] at hm
  | succ n ih =>
    intro s m hm
    cases s with
    | nil => simp [scanCapturesAux] at hm
    | cons c rest =>
      rw [scanCapturesAux] at hm
      cases hmv : matchKeyValAt lit (c :: rest) with
      | some capr =>
        obtain ⟨cap, r⟩ := capr
        simp only [hmv] at hm
        rw [List.mem_cons] at hm
        rcases hm with rfl | hm
        · exact matchKeyValAt_cap_ne_nil lit (c :: rest) m r hmv
        · exact ih r m hm
      | none =>
        simp only [hmv] at hm
        exact ih rest m hm

theorem scanCaptures_mem_ne_nil (lit s m : JStr)
    (hm : m ∈ scanCaptures lit s) : m ≠ [] :=
  scanCapturesAux_mem_ne_nil lit s.length s m hm

theorem filterMap_clean_eq_map :
    ∀ l : List JStr, (∀ m ∈ l, m ≠ []) →
      (l.filterMap (fun m =>
        match cleanUrl m with
        | some s => if s.isEmpty then none else some s
        | none => none)) = l.map cleanChain := by
  intro l
  induction l with
  | nil => intro _; rfl
  | cons m l ih =>
    intro h
    have hm : m ≠ [] := h m (List.mem_cons_self m l)
    have hc : cleanUrl m = some (cleanChain m) := cleanUrl_eq_some m hm
    have hcc : (cleanChain m).isEmpty = false := by
      have hne := cleanChain_ne_nil m hm
      cases hval : cleanChain m with
      | nil => exact absurd hval hne
      | cons a l2 => rfl
    have ht := ih (fun x hx => h x (List.mem_cons_of_mem m hx))
    simpa [List.filterMap_cons, hc, cleanChain_ne_nil m hm] using ht

theorem getAllMatches_eq_map (html pat : JStr) :
    Part000.getAllMatches html pat = (scanCaptures pat html).map cleanChain := by
  unfold Part000.getAllMatches
  exact filterMap_clean_eq_map _ (fun m hm => scanCaptures_mem_ne_nil pat html m hm)

theorem allMatches_mem_ne_nil (html pat : JStr) :
    ∀ m ∈ Part000.getAllMatches html pat, m ≠ [] := by
  rw [getAllMatches_eq_map]
  intro m hm
  rw [List.mem_map] at hm
  obtain ⟨k, hk, rfl⟩ := hm
  exact cleanChain_ne_nil k (scanCaptures_mem_ne_nil pat html k hk)

theorem getLastQ_map (g : JStr → JStr) :
    ∀ l : List JStr, (l.map g).getLast? = (l.getLast?).map g
  | [] => rfl
  | [_] => rfl
  | a :: b :: l => by
    rw [List.map_cons, List.map_cons, List.getLast?_cons_cons,
      List.getLast?_cons_cons, ← List.map_cons g b l]
    exact getLastQ_map g (b :: l)

theorem mem_of_getLastQ : ∀ (l : List JStr) (a : JStr), l.getLast? = some a → a ∈ l
  | [], a, h => Option.noConfusion h
  | [x], a, h => by
    rw [List.getLast?_singleton] at h
    cases h
    exact List.mem_singleton_self x
  | x :: y :: l, a, h => by
    rw [List.getLast?_cons_cons] at h
    exact List.mem_cons_of_mem x (mem_of_getLastQ (y :: l) a h)

theorem getLastQ_eq_none_iff : ∀ l : List JStr, l.getLast? = none ↔ l = []
  | [] => by simp
  | [x] => by simp [List.getLast?_singleton]
  | x :: y :: l => by
    rw [List.getLast?_cons_cons]
    constructor
    · intro h
      exact absurd ((getLastQ_eq_none_iff (y :: l)).mp h) (by simp)
    · intro h
      exact absurd h (by simp)

theorem isTruthy_getLastQ (A : List JStr) (hA : ∀ m ∈ A, m ≠ []) :
    isTruthy A.getLast? = !A.isEmpty := by
  cases h : A.getLast? with
  | none =>
    rw [(getLastQ_eq_none_iff A).mp h]
    rfl
  | some m =>
    have hm : m ≠ [] := hA m (mem_of_getLastQ A m h)
    have hne : A ≠ [] := by
      intro hnil
      rw [hnil] at h
      exact Option.noConfusion h
    cases A with
    | nil => exact absurd rfl hne
    | cons a l =>
      cases hval : m with
      | nil => exact absurd hval hm
      | cons b l2 =>
        subst hval
        rfl

theorem dropLitQ_length_le : ∀ (lit s t : JStr), dropLit? lit s = some t → t.length ≤ s.length
  | [], _, _, h => by cases h; exact le_rfl
  | _ :: _, [], _, h => Option.noConfusion h
  | p :: ps, c :: cs, t, h => by
    rw [dropLit?] at h
    split at h
    · have hrec := dropLitQ_length_le ps cs t h
      rw [List.length_cons]
      omega
    · exact Option.noConfusion h

theorem dropWhile_length_le (p : Char → Bool) :
    ∀ l : JStr, (l.dropWhile p).length ≤ l.length
  | [] => le_rfl
  | c :: l => by
    rw [List.dropWhile]
    split
    · exact le_trans (dropWhile_length_le p l) (by simp)
    · exact le_rfl

theorem matchKeyValAt_rest_lt (lit s cap r : JStr)
    (h : matchKeyValAt lit s = some (cap, r)) : r.length < s.length := by
  unfold matchKeyValAt at h
  split at h
  · exact Option.noConfusion h
  · rename_i s1 hdrop
    have hle1 : s1.length ≤ s.length := dropLitQ_length_le lit s s1 hdrop
    split at h
    · rename_i s3 hws1
      have hle2 : s3.length + 1 ≤ s1.length := by
        have hJ := dropWhile_length_le isJsSpace s1
        rw [hws1] at hJ
        rw [List.length_cons] at hJ
        omega
      split at h
      · rename_i s5 hws2
        have hle3 : s5.length + 1 ≤ s3.length := by
          have hJ := dropWhile_length_le isJsSpace s3
          rw [hws2] at hJ
          rw [List.length_cons] at hJ
          omega
        split at h
        · rename_i s7 hwq
          have hle4 : s7.length + 1 ≤ s5.length := by
            have hJ := dropWhile_length_le (fun c => c != '"') s5
            rw [hwq] at hJ
            rw [List.length_cons] at hJ
            omega
          split at h
          · exact Option.noConfusion h
          · cases h
            omega
        · exact Option.noConfusion h
      · exact Option.noConfusion h
    · exact Option.noConfusion h

theorem scanCapturesAux_congr (lit : JStr) :
    ∀ (f1 f2 : Nat) (s : JStr), s.length ≤ f1 → s.length ≤ f2 →
      scanCapturesAux lit f1 s = scanCapturesAux lit f2 s := by
  intro f1
  induction f1 with
  | zero =>
    intro f2 s h1 _
    have hs : s = [] := List.eq_nil_of_length_eq_zero (Nat.le_zero.mp h1)
    subst hs
    cases f2 <;> rfl
  | succ n ih =>
    intro f2 s h1 h2
    cases s with
    | nil => cases f2 <;> rfl
    | cons c rest =>
      cases f2 with
      | zero => simp at h2
      | succ m =>
        rw [List.length_cons] at h1 h2
        rw [scanCapturesAux, scanCapturesAux]
        cases hmv : matchKeyValAt lit (c :: rest) with
        | some capr =>
          obtain ⟨cap, r⟩ := capr
          simp only [hmv]
          have hr := matchKeyValAt_rest_lt lit (c :: rest) cap r hmv
          rw [List.length_cons] at hr
          exact congrArg (cap :: ·) (ih m r (by omega) (by omega))
        | none =>
          simp only [hmv]
          exact ih m rest (by omega) (by omega)

theorem getAllMatches_eq_nil_iff (html pat : JStr) :
    Part000.getAllMatches html pat = [] ↔ scanCaptures pat html = [] := by
  rw [getAllMatches_eq_map]
  constructor
  · intro h
    cases hs : scanCaptures pat html with
    | nil => rfl
    | cons a l =>
      rw [hs, List.map_cons] at h
      exact List.noConfusion h
  · intro h
    rw [h]
    rfl

theorem isEmpty_eq_false_of_ne_nil {α : Type} (A : List α) (h : A ≠ []) :
    A.isEmpty = false := by
  cases A with
  | nil => exact absurd rfl h
  | cons a l => rfl

theorem extract_hdUrl_eq (html : JStr) :
    (Part000.extractVideoUrlsFromHtml html).hdUrl
      = (let A1 := Part000.getAllMatches html hdPat1
         let A2 := Part000.getAllMatches html hdPat2
         let A3 := Part000.getAllMatches html hdPat3
         let b1 := if A1.length = 0 then A2 else A1
         let b2 := if b1.length = 0 then A3 else b1
         b2.getLast?) := rfl

theorem extract_sdUrl_eq (html : JStr) :
    (Part000.extractVideoUrlsFromHtml html).sdUrl
      = (let A1 := Part000.getAllMatches html sdPat1
         let A2 := Part000.getAllMatches html sdPat2
         let A3 := Part000.getAllMatches html sdPat3
         let b1 := if A1.length = 0 then A2 else A1
         let b2 := if b1.length = 0 then A3 else b1
         b2.getLast?) := rfl

theorem extract_hd_p1 (html : JStr) (h : Part000.getAllMatches html hdPat1 ≠ []) :
    (Part000.extractVideoUrlsFromHtml html).hdUrl
      = (Part000.getAllMatches html hdPat1).getLast? := by
  rw [extract_hdUrl_eq]
  simp [List.length_eq_zero, h]

theorem extract_hd_p2 (html : JStr) (h1 : Part000.getAllMatches html hdPat1 = [])
    (h2 : Part000.getAllMatches html hdPat2 ≠ []) :
    (Part000.extractVideoUrlsFromHtml html).hdUrl
      = (Part000.getAllMatches html hdPat2).getLast? := by
  rw [extract_hdUrl_eq]
  simp [List.length_eq_zero, h1, h2]

theorem extract_hd_p3 (html : JStr) (h1 : Part000.getAllMatches html hdPat1 = [])
    (h2 : Part000.getAllMatches html hdPat2 = []) :
    (Part000.extractVideoUrlsFromHtml html).hdUrl
      = (Part000.getAllMatches html hdPat3).getLast? := by
  rw [extract_hdUrl_eq]
  simp [List.length_eq_zero, h1, h2]

theorem extract_sd_p1 (html : JStr) (h : Part000.getAllMatches html sdPat1 ≠ []) :
    (Part000.extractVideoUrlsFromHtml html).sdUrl
      = (Part000.getAllMatches html sdPat1).getLast? := by
  rw [extract_sdUrl_eq]
  simp [List.length_eq_zero, h]

theorem extract_sd_p2 (html : JStr) (h1 : Part000.getAllMatches html sdPat1 = [])
    (h2 : Part000.getAllMatches html sdPat2 ≠ []) :
    (Part000.extractVideoUrlsFromHtml html).sdUrl
      = (Part000.getAllMatches html sdPat2).getLast? := by
  rw [extract_sdUrl_eq]
  simp [List.length_eq_zero, h1, h2]

theorem extract_sd_p3 (html : JStr) (h1 : Part000.getAllMatches html sdPat1 = [])
    (h2 : Part000.getAllMatches html sdPat2 = []) :
    (Part000.extractVideoUrlsFromHtml html).sdUrl
      = (Part000.getAllMatches html sdPat3).getLast? := by
  rw [extract_sdUrl_eq]
  simp [List.length_eq_zero, h1, h2]

theorem getLastMatch_eq_getLast_allMatches (html pat : JStr) :
    IndexJs.getLastMatch html pat = (Part000.getAllMatches html pat).getLast? := by
  rw [getAllMatches_eq_map, getLastQ_map]
  unfold IndexJs.getLastMatch
  cases h : (scanCaptures pat html).getLast? with
  | none => rfl
  | some m =>
    have hm : m ≠ [] := scanCaptures_mem_ne_nil pat html m (mem_of_getLastQ _ m h)
    show cleanUrl m = Option.map cleanChain (some m)
    rw [cleanUrl_eq_some m hm]
    rfl

theorem tier_select_eq (A1 A2 A3 : List JStr)
    (n1 : ∀ m ∈ A1, m ≠ []) (n2 : ∀ m ∈ A2, m ≠ []) :
    (if isTruthy (if isTruthy A1.getLast? then A1.getLast? else A2.getLast?)
       then (if isTruthy A1.getLast? then A1.getLast? else A2.getLast?)
       else A3.getLast?)
    = (if (if A1.length = 0 then A2 else A1).length = 0 then A3
       else if A1.length = 0 then A2 else A1).getLast? := by
  by_cases e1 : A1 = []
  · subst e1
    have hnil : (([] : List JStr)).getLast? = none := rfl
    rw [hnil]
    have hf : isTruthy none = false := rfl
    rw [hf]
    simp only [Bool.false_eq_true, if_false, List.length_nil, if_pos rfl]
    by_cases e2 : A2 = []
    · subst e2
      rw [hnil, hf]
      simp [Bool.false_eq_true]
    · have t2 : isTruthy A2.getLast? = true := by
        rw [isTruthy_getLastQ A2 n2, isEmpty_eq_false_of_ne_nil A2 e2]
        rfl
      rw [t2]
      simp [List.length_eq_zero, e2]
  · have t1 : isTruthy A1.getLast? = true := by
      rw [isTruthy_getLastQ A1 n1, isEmpty_eq_false_of_ne_nil A1 e1]
      rfl
    rw [t1]
    simp [t1, List.length_eq_zero, e1]

/-- C9: the two extractor implementations present in the repository, the
per-pattern last-match version of src/index.js and the
collect-all-then-pick-last version of src/unnamed/part_000, compute the same
high-quality and standard-quality pair for every markup string. -/
theorem c9_extractors_agree (html : JStr) :
    IndexJs.extractVideoUrlsFromHtml html = Part000.extractVideoUrlsFromHtml html := by
  unfold IndexJs.extractVideoUrlsFromHtml Part000.extractVideoUrlsFromHtml
  simp only [getLastMatch_eq_getLast_allMatches]
  rw [MediaLinkSet.mk.injEq]
  constructor
  · exact tier_select_eq _ _ _
      (allMatches_mem_ne_nil html hdPat1) (allMatches_mem_ne_nil html hdPat2)
  · exact tier_select_eq _ _ _
      (allMatches_mem_ne_nil html sdPat1) (allMatches_mem_ne_nil html sdPat2)

/-- C10: the first standard-quality pattern, whose key literal is the quoted
text playable_url, never matches at an occurrence of the quoted key
playable_url_quality_hd: the closing quote of the pattern literal fails
against the underscore of the longer key, so a high-quality entry can never
be captured as the standard-quality link through that pattern. -/
theorem c10_sd_pattern_skips_hd_key (rest : JStr) :
    matchKeyValAt sdPat1 ("\"playable_url_quality_hd\"".data ++ rest) = none := rfl

/-- C5 counterexample: normalizeUrl is not idempotent.  Each rule of
normalizeUrl replaces only the first occurrence of its pattern, so an input
containing the share path form twice is rewritten further by a second
application. -/
theorem c5_counterexample :
    normalizeUrl (normalizeUrl "/share/v//share/v/".data)
      ≠ normalizeUrl "/share/v//share/v/".data := by decide

/-- C5 amended: normalizeUrl is idempotent on every input whose normalized
form contains no remaining occurrence of the four rewritable substrings
(the three scheme-prefixed alternate host forms and the share path form);
in particular on ordinary single-url inputs. -/
theorem c5_amended (s : JStr)
    (h1 : containsSub "://m.facebook.com/".data (normalizeUrl s) = false)
    (h2 : containsSub "://web.facebook.com/".data (normalizeUrl s) = false)
    (h3 : containsSub "://touch.facebook.com/".data (normalizeUrl s) = false)
    (h4 : containsSub "/share/v/".data (normalizeUrl s) = false) :
    normalizeUrl (normalizeUrl s) = normalizeUrl s := by
  conv_lhs => rw [normalizeUrl]
  rw [replFirst_eq_self_of_not_contains "://m.facebook.com/".data
      "://www.facebook.com/".data (normalizeUrl s) h1,
    replFirst_eq_self_of_not_contains "://web.facebook.com/".data
      "://www.facebook.com/".data (normalizeUrl s) h2,
    replFirst_eq_self_of_not_contains "://touch.facebook.com/".data
      "://www.facebook.com/".data (normalizeUrl s) h3,
    replFirst_eq_self_of_not_contains "/share/v/".data
      "/reel/".data (normalizeUrl s) h4]

/-- Witness for C5 amended at a concrete mobile share url. -/
theorem c5_witness :
    normalizeUrl (normalizeUrl "https://m.facebook.com/share/v/abc".data)
      = normalizeUrl "https://m.facebook.com/share/v/abc".data :=
  c5_amended "https://m.facebook.com/share/v/abc".data
    (by decide) (by decide) (by decide) (by decide)

/-- C6 counterexample: with an m-subdomain host, a later occurrence of a
DIFFERENT scheme-prefixed alternate host form elsewhere in the url (here a
web-subdomain form inside the query string) is also rewritten, because each
rule replaces the first occurrence of its own pattern anywhere in the
string.  The claim asserts such occurrences are never rewritten. -/
theorem c6_counterexample :
    (normalizeUrl "https://m.facebook.com/a?b=://web.facebook.com/c".data
       = "https://www.facebook.com/a?b=://www.facebook.com/c".data) ∧
    (normalizeUrl "https://m.facebook.com/a?b=://web.facebook.com/c".data
       ≠ "https://www.facebook.com/a?b=://web.facebook.com/c".data) := by
  exact ⟨by decide, by decide⟩

/-- C6 amended: for a url built from a colon-free scheme, one alternate
scheme-prefixed host segment (m, web or touch form) and an arbitrary rest
containing no further scheme-prefixed alternate host pattern, the host
segment is rewritten to the www form and the rest is left untouched by the
host rules (in particular bare m. or web. or touch. text without the scheme
separator is never rewritten); finally the share path rule applies, and a
share path segment directly after the host is rewritten to the reel form. -/
theorem c6_amended (scheme rest : JStr)
    (hs : scheme.all (fun ch => ch != ':') = true)
    (h1 : containsSub "://m.facebook.com/".data rest = false)
    (h2 : containsSub "://web.facebook.com/".data rest = false)
    (h3 : containsSub "://touch.facebook.com/".data rest = false) :
    (normalizeUrl (scheme ++ ("://m.facebook.com/".data ++ rest))
       = replFirst "/share/v/".data "/reel/".data
           (scheme ++ ("://www.facebook.com/".data ++ rest))) ∧
    (normalizeUrl (scheme ++ ("://web.facebook.com/".data ++ rest))
       = replFirst "/share/v/".data "/reel/".data
           (scheme ++ ("://www.facebook.com/".data ++ rest))) ∧
    (normalizeUrl (scheme ++ ("://touch.facebook.com/".data ++ rest))
       = replFirst "/share/v/".data "/reel/".data
           (scheme ++ ("://www.facebook.com/".data ++ rest))) ∧
    (normalizeUrl ("https://m.facebook.com/share/v/".data ++ rest)
       = "https://www.facebook.com/reel/".data ++ rest) := by
  have hmc : "://m.facebook.com/".data = ':' :: "//m.facebook.com/".data := rfl
  have hwc : "://web.facebook.com/".data = ':' :: "//web.facebook.com/".data := rfl
  have htc : "://touch.facebook.com/".data = ':' :: "//touch.facebook.com/".data := rfl
  have bs_m : boundaryOk "://m.facebook.com/".data scheme = true := by
    rw [hmc]
    exact boundaryOk_of_all_ne ':' "//m.facebook.com/".data scheme hs
  have bs_w : boundaryOk "://web.facebook.com/".data scheme = true := by
    rw [hwc]
    exact boundaryOk_of_all_ne ':' "//web.facebook.com/".data scheme hs
  have bs_t : boundaryOk "://touch.facebook.com/".data scheme = true := by
    rw [htc]
    exact boundaryOk_of_all_ne ':' "//touch.facebook.com/".data scheme hs
  refine ⟨?_, ?_, ?_, ?_⟩
  · rw [normalizeUrl,
      replFirst_append_of_boundaryOk "://m.facebook.com/".data
        "://www.facebook.com/".data scheme _ bs_m,
      replFirst_append_fire "://m.facebook.com/".data
        "://www.facebook.com/".data rest (by decide),
      replFirst_eq_self_of_not_contains "://web.facebook.com/".data
        "://www.facebook.com/".data _
        (containsSub_append_eq_false _ scheme _ bs_w
          (containsSub_append_eq_false _ _ rest (by decide) h2)),
      replFirst_eq_self_of_not_contains "://touch.facebook.com/".data
        "://www.facebook.com/".data _
        (containsSub_append_eq_false _ scheme _ bs_t
          (containsSub_append_eq_false _ _ rest (by decide) h3))]
  · rw [normalizeUrl,
      replFirst_eq_self_of_not_contains "://m.facebook.com/".data
        "://www.facebook.com/".data _
        (containsSub_append_eq_false _ scheme _ bs_m
          (containsSub_append_eq_false _ _ rest (by decide) h1)),
      replFirst_append_of_boundaryOk "://web.facebook.com/".data
        "://www.facebook.com/".data scheme _ bs_w,
      replFirst_append_fire "://web.facebook.com/".data
        "://www.facebook.com/".data rest (by decide),
      replFirst_eq_self_of_not_contains "://touch.facebook.com/".data
        "://www.facebook.com/".data _
        (containsSub_append_eq_false _ scheme _ bs_t
          (containsSub_append_eq_false _ _ rest (by decide) h3))]
  · rw [normalizeUrl,
      replFirst_eq_self_of_not_contains "://m.facebook.com/".data
        "://www.facebook.com/".data _
        (containsSub_append_eq_false _ scheme _ bs_m
          (containsSub_append_eq_false _ _ rest (by decide) h1)),
      replFirst_eq_self_of_not_contains "://web.facebook.com/".data
        "://www.facebook.com/".data _
        (containsSub_append_eq_false _ scheme _ bs_w
          (containsSub_append_eq_false _ _ rest (by decide) h2)),
      replFirst_append_of_boundaryOk "://touch.facebook.com/".data
        "://www.facebook.com/".data scheme _ bs_t,
      replFirst_append_fire "://touch.facebook.com/".data
        "://www.facebook.com/".data rest (by decide)]
  · have hsplit : ("https://m.facebook.com/share/v/".data : JStr)
        = "https".data ++ ("://m.facebook.com/".data ++ "share/v/".data) := by decide
    rw [normalizeUrl, hsplit]
    simp only [List.append_assoc]
    rw [replFirst_append_of_boundaryOk "://m.facebook.com/".data
        "://www.facebook.com/".data "https".data _ (by decide),
      replFirst_append_fire "://m.facebook.com/".data
        "://www.facebook.com/".data ("share/v/".data ++ rest) (by decide),
      replFirst_eq_self_of_not_contains "://web.facebook.com/".data
        "://www.facebook.com/".data _
        (containsSub_append_eq_false _ "https".data _ (by decide)
          (containsSub_append_eq_false _ "://www.facebook.com/".data _ (by decide)
            (containsSub_append_eq_false _ "share/v/".data rest (by decide) h2))),
      replFirst_eq_self_of_not_contains "://touch.facebook.com/".data
        "://www.facebook.com/".data _
        (containsSub_append_eq_false _ "https".data _ (by decide)
          (containsSub_append_eq_false _ "://www.facebook.com/".data _ (by decide)
            (containsSub_append_eq_false _ "share/v/".data rest (by decide) h3)))]
    have hre : "https".data ++ ("://www.facebook.com/".data ++ ("share/v/".data ++ rest))
        = "https://www.facebook.com".data ++ ("/share/v/".data ++ rest) := by
      have hcat : ("https".data ++ ("://www.facebook.com/".data ++ "share/v/".data) : JStr)
          = "https://www.facebook.com".data ++ "/share/v/".data := by decide
      calc "https".data ++ ("://www.facebook.com/".data ++ ("share/v/".data ++ rest))
          = ("https".data ++ ("://www.facebook.com/".data ++ "share/v/".data)) ++ rest := by
            simp [List.append_assoc]
        _ = ("https://www.facebook.com".data ++ "/share/v/".data) ++ rest := by rw [hcat]
        _ = "https://www.facebook.com".data ++ ("/share/v/".data ++ rest) := by
            simp [List.append_assoc]
    rw [hre,
      replFirst_append_of_boundaryOk "/share/v/".data "/reel/".data
        "https://www.facebook.com".data _ (by decide),
      replFirst_append_fire "/share/v/".data "/reel/".data rest (by decide)]
    have hcat2 : ("https://www.facebook.com".data ++ "/reel/".data : JStr)
        = "https://www.facebook.com/reel/".data := by decide
    rw [← List.append_assoc, hcat2]

/-- Witness for C6 amended: an m-subdomain url whose path contains the bare
text m.facebook.com without a scheme separator; the path is untouched. -/
theorem c6_witness :
    normalizeUrl ("https".data ++ ("://m.facebook.com/".data ++ "watch/m.facebook.com".data))
      = replFirst "/share/v/".data "/reel/".data
          ("https".data ++ ("://www.facebook.com/".data ++ "watch/m.facebook.com".data)) :=
  (c6_amended "https".data "watch/m.facebook.com".data
    (by decide) (by decide) (by decide) (by decide)).1

theorem extract_hdUrl_ne_empty (html s : JStr)
    (h : (Part000.extractVideoUrlsFromHtml html).hdUrl = some s) : s ≠ [] := by
  by_cases e1 : Part000.getAllMatches html hdPat1 = []
  · by_cases e2 : Part000.getAllMatches html hdPat2 = []
    · rw [extract_hd_p3 html e1 e2] at h
      exact allMatches_mem_ne_nil html hdPat3 s (mem_of_getLastQ _ s h)
    · rw [extract_hd_p2 html e1 e2] at h
      exact allMatches_mem_ne_nil html hdPat2 s (mem_of_getLastQ _ s h)
  · rw [extract_hd_p1 html e1] at h
    exact allMatches_mem_ne_nil html hdPat1 s (mem_of_getLastQ _ s h)

theorem extract_sdUrl_ne_empty (html s : JStr)
    (h : (Part000.extractVideoUrlsFromHtml html).sdUrl = some s) : s ≠ [] := by
  by_cases e1 : Part000.getAllMatches html sdPat1 = []
  · by_cases e2 : Part000.getAllMatches html sdPat2 = []
    · rw [extract_sd_p3 html e1 e2] at h
      exact allMatches_mem_ne_nil html sdPat3 s (mem_of_getLastQ _ s h)
    · rw [extract_sd_p2 html e1 e2] at h
      exact allMatches_mem_ne_nil html sdPat2 s (mem_of_getLastQ _ s h)
  · rw [extract_sd_p1 html e1] at h
    exact allMatches_mem_ne_nil html sdPat1 s (mem_of_getLastQ _ s h)

theorem isTruthy_extract_hd_iff (html : JStr) :
    isTruthy (Part000.extractVideoUrlsFromHtml html).hdUrl = true
      ↔ (Part000.extractVideoUrlsFromHtml html).hdUrl ≠ none := by
  cases h : (Part000.extractVideoUrlsFromHtml html).hdUrl with
  | none => simp [isTruthy]
  | some s =>
    have hs := extract_hdUrl_ne_empty html s h
    simp [isTruthy, isEmpty_eq_false_of_ne_nil s hs]

theorem isTruthy_extract_sd_iff (html : JStr) :
    isTruthy (Part000.extractVideoUrlsFromHtml html).sdUrl = true
      ↔ (Part000.extractVideoUrlsFromHtml html).sdUrl ≠ none := by
  cases h : (Part000.extractVideoUrlsFromHtml html).sdUrl with
  | none => simp [isTruthy]
  | some s =>
    have hs := extract_sdUrl_ne_empty html s h
    simp [isTruthy, isEmpty_eq_false_of_ne_nil s hs]

/-- C1 counterexample: when the Direct-Fetch strategy throws, the handler's
single try block routes the exception to the catch-all: the response is a
500 carrying the thrown message and the Rendered-Fetch strategy is invoked
zero times, contradicting caught-as-NotFound with exactly one
Rendered-Fetch invocation. -/
theorem c1_counterexample :
    (apiExtract (some "https://www.facebook.com/watch".data)
        (.thrown "ETIMEDOUT".data) (.ok "page".data) 5).puppeteerCalls = 0 ∧
    (apiExtract (some "https://www.facebook.com/watch".data)
        (.thrown "ETIMEDOUT".data) (.ok "page".data) 5).response.status = 500 ∧
    (apiExtract (some "https://www.facebook.com/watch".data)
        (.thrown "ETIMEDOUT".data) (.ok "page".data) 5).response.error
      = some "ETIMEDOUT".data :=
  ⟨by decide, by decide, by decide⟩

/-- C1 amended: a Direct-Fetch exception is not treated as NotFound.  It
propagates to the endpoint's catch-all, producing a 500 response that
carries the exception message, and Rendered-Fetch is not invoked at all.
Rendered-Fetch is invoked exactly once precisely when Direct-Fetch completes
without throwing and resolves with no result: once in that case, zero times
when Direct-Fetch throws, and zero times when Direct-Fetch resolves with a
result. -/
theorem c1_amended (u msg : JStr) (direct rendered : FetchOutcome) (dur : Nat)
    (hu : u.isEmpty = false)
    (hval : (containsSub "facebook.com".data u || containsSub "fb.com".data u) = true) :
    ((apiExtract (some u) (.thrown msg) rendered dur).response.status = 500 ∧
     (apiExtract (some u) (.thrown msg) rendered dur).response.error = some msg ∧
     (apiExtract (some u) (.thrown msg) rendered dur).puppeteerCalls = 0) ∧
    (extractViaHttp direct = .ok none →
      (apiExtract (some u) direct rendered dur).puppeteerCalls = 1) ∧
    (∀ r, extractViaHttp direct = .ok (some r) →
      (apiExtract (some u) direct rendered dur).puppeteerCalls = 0) := by
  refine ⟨?_, ?_, ?_⟩
  · refine ⟨?_, ?_, ?_⟩ <;>
      simp [apiExtract, hu, hval, extractViaHttp, resp500]
  · intro hok
    cases hr : extractViaPuppeteer rendered with
    | error e => simp [apiExtract, hu, hval, hok, hr]
    | ok o =>
      cases o with
      | none => simp [apiExtract, hu, hval, hok, hr]
      | some result => simp [apiExtract, hu, hval, hok, hr]
  · intro r hok
    simp [apiExtract, hu, hval, hok]

/-- Witness for C1 amended: a thrown Direct-Fetch gives a 500, a
Direct-Fetch that resolves empty leads to exactly one Rendered-Fetch
invocation, and a Direct-Fetch that resolves with a result leads to none. -/
theorem c1_witness :
    (apiExtract (some "https://www.facebook.com/watch".data)
        (.ok "empty page".data) (.ok "page".data) 3).puppeteerCalls = 1 ∧
    (apiExtract (some "https://www.facebook.com/watch".data)
        (.thrown "boom".data) (.ok "page".data) 3).response.status = 500 ∧
    (apiExtract (some "https://www.facebook.com/watch".data)
        (.ok "\"playable_url\":\"X\"".data) (.ok "page".data) 3).puppeteerCalls = 0 :=
  ⟨(c1_amended "https://www.facebook.com/watch".data "boom".data
      (.ok "empty page".data) (.ok "page".data) 3 (by decide) (by decide)).2.1 (by decide),
   (c1_amended "https://www.facebook.com/watch".data "boom".data
      (.ok "empty page".data) (.ok "page".data) 3 (by decide) (by decide)).1.1,
   (c1_amended "https://www.facebook.com/watch".data "boom".data
      (.ok "\"playable_url\":\"X\"".data) (.ok "page".data) 3 (by decide) (by decide)).2.2
      { success := true, hdUrl := none, sdUrl := some "X".data, method := "http".data }
      (by decide)⟩

/-- C7: neither strategy resolves with a result object whose two url fields
are both null.  Given a fetched or rendered body, a strategy resolves with a
result (carrying its method tag and exactly the extracted pair) precisely
when the extracted pair has at least one field present, and resolves with
null precisely when both fields are absent. -/
theorem c7_found_iff (body : JStr) :
    (∀ r, extractViaHttp (.ok body) = .ok (some r) →
        (r.hdUrl ≠ none ∨ r.sdUrl ≠ none) ∧
        r.hdUrl = (Part000.extractVideoUrlsFromHtml body).hdUrl ∧
        r.sdUrl = (Part000.extractVideoUrlsFromHtml body).sdUrl ∧
        r.method = "http".data) ∧
    (extractViaHttp (.ok body) = .ok none ↔
        (Part000.extractVideoUrlsFromHtml body).hdUrl = none ∧
        (Part000.extractVideoUrlsFromHtml body).sdUrl = none) ∧
    (∀ r, extractViaPuppeteer (.ok body) = .ok (some r) →
        (r.hdUrl ≠ none ∨ r.sdUrl ≠ none) ∧
        r.hdUrl = (Part000.extractVideoUrlsFromHtml body).hdUrl ∧
        r.sdUrl = (Part000.extractVideoUrlsFromHtml body).sdUrl ∧
        r.method = "puppeteer".data) ∧
    (extractViaPuppeteer (.ok body) = .ok none ↔
        (Part000.extractVideoUrlsFromHtml body).hdUrl = none ∧
        (Part000.extractVideoUrlsFromHtml body).sdUrl = none) := by
  by_cases hcond : (isTruthy (Part000.extractVideoUrlsFromHtml body).hdUrl
      || isTruthy (Part000.extractVideoUrlsFromHtml body).sdUrl) = true
  · have hor : (Part000.extractVideoUrlsFromHtml body).hdUrl ≠ none
        ∨ (Part000.extractVideoUrlsFromHtml body).sdUrl ≠ none := by
      rcases Bool.or_eq_true_iff.mp hcond with h | h
      · exact Or.inl ((isTruthy_extract_hd_iff body).mp h)
      · exact Or.inr ((isTruthy_extract_sd_iff body).mp h)
    refine ⟨?_, ?_, ?_, ?_⟩
    · intro r hr
      simp only [extractViaHttp, hcond, if_true, Except.ok.injEq,
        Option.some.injEq] at hr
      rw [← hr]
      exact ⟨hor, rfl, rfl, rfl⟩
    · simp only [extractViaHttp, hcond, if_true, Except.ok.injEq]
      constructor
      · intro hr
        exact Option.noConfusion hr
      · intro hboth
        rcases hor with h | h
        · exact absurd hboth.1 h
        · exact absurd hboth.2 h
    · intro r hr
      simp only [extractViaPuppeteer, hcond, if_true, Except.ok.injEq,
        Option.some.injEq] at hr
      rw [← hr]
      exact ⟨hor, rfl, rfl, rfl⟩
    · simp only [extractViaPuppeteer, hcond, if_true, Except.ok.injEq]
      constructor
      · intro hr
        exact Option.noConfusion hr
      · intro hboth
        rcases hor with h | h
        · exact absurd hboth.1 h
        · exact absurd hboth.2 h
  · have hboth : (Part000.extractVideoUrlsFromHtml body).hdUrl = none
        ∧ (Part000.extractVideoUrlsFromHtml body).sdUrl = none := by
      rw [Bool.or_eq_true_iff] at hcond
      push_neg at hcond
      constructor
      · by_cases hh : (Part000.extractVideoUrlsFromHtml body).hdUrl = none
        · exact hh
        · exact absurd ((isTruthy_extract_hd_iff body).mpr hh) hcond.1
      · by_cases hh : (Part000.extractVideoUrlsFromHtml body).sdUrl = none
        · exact hh
        · exact absurd ((isTruthy_extract_sd_iff body).mpr hh) hcond.2
    refine ⟨?_, ?_, ?_, ?_⟩
    · intro r hr
      simp only [extractViaHttp, hcond, if_false] at hr
      exact absurd hr (by simp)
    · simp only [extractViaHttp, hcond, if_false]
      simp [hboth.1, hboth.2]
    · intro r hr
      simp only [extractViaPuppeteer, hcond, if_false] at hr
      exact absurd hr (by simp)
    · simp only [extractViaPuppeteer, hcond, if_false]
      simp [hboth.1, hboth.2]

/-- Witness for C7 at a body containing one standard-quality entry. -/
theorem c7_witness :
    extractViaHttp (.ok "\"playable_url\":\"X\"".data) = .ok
      (some { success := true, hdUrl := none, sdUrl := some "X".data,
              method := "http".data }) ∧
    ((Part000.extractVideoUrlsFromHtml "no video here".data).hdUrl = none ∧
     (Part000.extractVideoUrlsFromHtml "no video here".data).sdUrl = none →
      extractViaHttp (.ok "no video here".data) = .ok none) :=
  ⟨by decide, fun hb => ((c7_found_iff "no video here".data).2.1).mpr hb⟩

/-- C8: when both strategies complete without an exception and neither
resolves with a result, the endpoint responds 404 with success false, the
private-or-deleted message, and duration_ms equal to the measured duration
(a natural number, hence an integer that is at least zero). -/
theorem c8_total_failure (u : JStr) (direct rendered : FetchOutcome) (dur : Nat)
    (hu : u.isEmpty = false)
    (hval : (containsSub "facebook.com".data u || containsSub "fb.com".data u) = true)
    (hd : extractViaHttp direct = .ok none)
    (hr : extractViaPuppeteer rendered = .ok none) :
    (apiExtract (some u) direct rendered dur).response.status = 404 ∧
    (apiExtract (some u) direct rendered dur).response.success = false ∧
    (apiExtract (some u) direct rendered dur).response.error
      = some "Could not extract video URL. The video may be private or deleted.".data ∧
    (apiExtract (some u) direct rendered dur).response.duration_ms = some dur := by
  refine ⟨?_, ?_, ?_, ?_⟩ <;>
    simp [apiExtract, hu, hval, hd, hr, resp404]

/-- Witness for C8: a valid url with two bodies the extractor finds nothing
in yields the 404 shape. -/
theorem c8_witness :
    (apiExtract (some "https://fb.com/v/1".data)
        (.ok "nothing".data) (.ok "still nothing".data) 9).response.status = 404 ∧
    (apiExtract (some "https://fb.com/v/1".data)
        (.ok "nothing".data) (.ok "still nothing".data) 9).response.duration_ms = some 9 :=
  ⟨(c8_total_failure "https://fb.com/v/1".data (.ok "nothing".data)
      (.ok "still nothing".data) 9 (by decide) (by decide) (by decide) (by decide)).1,
   (c8_total_failure "https://fb.com/v/1".data (.ok "nothing".data)
      (.ok "still nothing".data) 9 (by decide) (by decide) (by decide) (by decide)).2.2.2⟩

theorem allMatches_getLast_eq (html pat m : JStr)
    (h : (scanCaptures pat html).getLast? = some m) :
    (Part000.getAllMatches html pat).getLast? = cleanUrl m := by
  rw [getAllMatches_eq_map, getLastQ_map, h]
  have hm : m ≠ [] := scanCaptures_mem_ne_nil pat html m (mem_of_getLastQ _ m h)
  rw [cleanUrl_eq_some m hm]
  rfl

theorem allMatches_ne_nil_of_scan (html pat : JStr)
    (h : scanCaptures pat html ≠ []) : Part000.getAllMatches html pat ≠ [] := by
  rw [Ne, getAllMatches_eq_nil_iff]
  exact h

theorem allMatches_nil_of_scan (html pat : JStr)
    (h : scanCaptures pat html = []) : Part000.getAllMatches html pat = [] :=
  (getAllMatches_eq_nil_iff html pat).mpr h

theorem scan_ne_nil_of_getLast (pat html m : JStr)
    (h : (scanCaptures pat html).getLast? = some m) : scanCaptures pat html ≠ [] := by
  intro hnil
  rw [hnil] at h
  exact Option.noConfusion h

/-- C2: when the winning pattern of a tier (the first of the tier's three
patterns whose match list is non-empty) ends with last capture m, the
extractor returns exactly the unescaped value of that last occurrence in
document order for the tier. -/
theorem c2_last_occurrence (html : JStr) :
    (∀ m, (scanCaptures hdPat1 html).getLast? = some m →
       (Part000.extractVideoUrlsFromHtml html).hdUrl = cleanUrl m) ∧
    (scanCaptures hdPat1 html = [] →
      ∀ m, (scanCaptures hdPat2 html).getLast? = some m →
       (Part000.extractVideoUrlsFromHtml html).hdUrl = cleanUrl m) ∧
    (scanCaptures hdPat1 html = [] → scanCaptures hdPat2 html = [] →
      ∀ m, (scanCaptures hdPat3 html).getLast? = some m →
       (Part000.extractVideoUrlsFromHtml html).hdUrl = cleanUrl m) ∧
    (∀ m, (scanCaptures sdPat1 html).getLast? = some m →
       (Part000.extractVideoUrlsFromHtml html).sdUrl = cleanUrl m) ∧
    (scanCaptures sdPat1 html = [] →
      ∀ m, (scanCaptures sdPat2 html).getLast? = some m →
       (Part000.extractVideoUrlsFromHtml html).sdUrl = cleanUrl m) ∧
    (scanCaptures sdPat1 html = [] → scanCaptures sdPat2 html = [] →
      ∀ m, (scanCaptures sdPat3 html).getLast? = some m →
       (Part000.extractVideoUrlsFromHtml html).sdUrl = cleanUrl m) := by
  refine ⟨?_, ?_, ?_, ?_, ?_, ?_⟩
  · intro m h
    rw [extract_hd_p1 html
      (allMatches_ne_nil_of_scan html hdPat1 (scan_ne_nil_of_getLast hdPat1 html m h))]
    exact allMatches_getLast_eq html hdPat1 m h
  · intro h1 m h
    rw [extract_hd_p2 html (allMatches_nil_of_scan html hdPat1 h1)
      (allMatches_ne_nil_of_scan html hdPat2 (scan_ne_nil_of_getLast hdPat2 html m h))]
    exact allMatches_getLast_eq html hdPat2 m h
  · intro h1 h2 m h
    rw [extract_hd_p3 html (allMatches_nil_of_scan html hdPat1 h1)
      (allMatches_nil_of_scan html hdPat2 h2)]
    exact allMatches_getLast_eq html hdPat3 m h
  · intro m h
    rw [extract_sd_p1 html
      (allMatches_ne_nil_of_scan html sdPat1 (scan_ne_nil_of_getLast sdPat1 html m h))]
    exact allMatches_getLast_eq html sdPat1 m h
  · intro h1 m h
    rw [extract_sd_p2 html (allMatches_nil_of_scan html sdPat1 h1)
      (allMatches_ne_nil_of_scan html sdPat2 (scan_ne_nil_of_getLast sdPat2 html m h))]
    exact allMatches_getLast_eq html sdPat2 m h
  · intro h1 h2 m h
    rw [extract_sd_p3 html (allMatches_nil_of_scan html sdPat1 h1)
      (allMatches_nil_of_scan html sdPat2 h2)]
    exact allMatches_getLast_eq html sdPat3 m h

/-- Witness for C2: with exactly three occurrences of the winning
high-quality pattern, the third capture is returned, not the first. -/
theorem c2_witness :
    (Part000.extractVideoUrlsFromHtml
        "\"playable_url_quality_hd\":\"A1\" \"playable_url_quality_hd\":\"B2\" \"playable_url_quality_hd\":\"C3\"".data).hdUrl
      = some "C3".data ∧ ("C3".data : JStr) ≠ "A1".data := by
  constructor
  · have h := (c2_last_occurrence
      "\"playable_url_quality_hd\":\"A1\" \"playable_url_quality_hd\":\"B2\" \"playable_url_quality_hd\":\"C3\"".data).1
      "C3".data (by decide)
    rw [h]
    decide
  · decide

/-- C3: per tier, the three patterns are tried strictly in the listed
order; the first pattern with a non-empty match list decides the tier's
output alone (later patterns of the tier are irrelevant once one has
matched), and when no pattern of either tier matches anywhere in the
markup, both output fields are absent. -/
theorem c3_pattern_priority (html : JStr) :
    (scanCaptures hdPat1 html ≠ [] →
       (Part000.extractVideoUrlsFromHtml html).hdUrl
         = (Part000.getAllMatches html hdPat1).getLast?) ∧
    (scanCaptures hdPat1 html = [] → scanCaptures hdPat2 html ≠ [] →
       (Part000.extractVideoUrlsFromHtml html).hdUrl
         = (Part000.getAllMatches html hdPat2).getLast?) ∧
    (scanCaptures hdPat1 html = [] → scanCaptures hdPat2 html = [] →
       (Part000.extractVideoUrlsFromHtml html).hdUrl
         = (Part000.getAllMatches html hdPat3).getLast?) ∧
    (scanCaptures sdPat1 html ≠ [] →
       (Part000.extractVideoUrlsFromHtml html).sdUrl
         = (Part000.getAllMatches html sdPat1).getLast?) ∧
    (scanCaptures sdPat1 html = [] → scanCaptures sdPat2 html ≠ [] →
       (Part000.extractVideoUrlsFromHtml html).sdUrl
         = (Part000.getAllMatches html sdPat2).getLast?) ∧
    (scanCaptures sdPat1 html = [] → scanCaptures sdPat2 html = [] →
       (Part000.extractVideoUrlsFromHtml html).sdUrl
         = (Part000.getAllMatches html sdPat3).getLast?) ∧
    (scanCaptures hdPat1 html = [] → scanCaptures hdPat2 html = [] →
     scanCaptures hdPat3 html = [] → scanCaptures sdPat1 html = [] →
     scanCaptures sdPat2 html = [] → scanCaptures sdPat3 html = [] →
       (Part000.extractVideoUrlsFromHtml html).hdUrl = none ∧
       (Part000.extractVideoUrlsFromHtml html).sdUrl = none) := by
  refine ⟨?_, ?_, ?_, ?_, ?_, ?_, ?_⟩
  · intro h1
    exact extract_hd_p1 html (allMatches_ne_nil_of_scan html hdPat1 h1)
  · intro h1 h2
    exact extract_hd_p2 html (allMatches_nil_of_scan html hdPat1 h1)
      (allMatches_ne_nil_of_scan html hdPat2 h2)
  · intro h1 h2
    exact extract_hd_p3 html (allMatches_nil_of_scan html hdPat1 h1)
      (allMatches_nil_of_scan html hdPat2 h2)
  · intro h1
    exact extract_sd_p1 html (allMatches_ne_nil_of_scan html sdPat1 h1)
  · intro h1 h2
    exact extract_sd_p2 html (allMatches_nil_of_scan html sdPat1 h1)
      (allMatches_ne_nil_of_scan html sdPat2 h2)
  · intro h1 h2
    exact extract_sd_p3 html (allMatches_nil_of_scan html sdPat1 h1)
      (allMatches_nil_of_scan html sdPat2 h2)
  · intro h1 h2 h3 h4 h5 h6
    constructor
    · rw [extract_hd_p3 html (allMatches_nil_of_scan html hdPat1 h1)
        (allMatches_nil_of_scan html hdPat2 h2),
        allMatches_nil_of_scan html hdPat3 h3]
      rfl
    · rw [extract_sd_p3 html (allMatches_nil_of_scan html sdPat1 h4)
        (allMatches_nil_of_scan html sdPat2 h5),
        allMatches_nil_of_scan html sdPat3 h6]
      rfl

/-- Witness for C3: with both the first and the second high-quality pattern
present, the first decides the tier; and with pattern-free markup both
fields are absent. -/
theorem c3_witness :
    (Part000.extractVideoUrlsFromHtml
        "\"playable_url_quality_hd\":\"P1\" \"browser_native_hd_url\":\"P2\"".data).hdUrl
      = (Part000.getAllMatches
          "\"playable_url_quality_hd\":\"P1\" \"browser_native_hd_url\":\"P2\"".data
          hdPat1).getLast? ∧
    (Part000.extractVideoUrlsFromHtml "plain text".data).hdUrl = none ∧
    (Part000.extractVideoUrlsFromHtml "plain text".data).sdUrl = none :=
  ⟨(c3_pattern_priority
      "\"playable_url_quality_hd\":\"P1\" \"browser_native_hd_url\":\"P2\"".data).1
      (by decide),
   ((c3_pattern_priority "plain text".data).2.2.2.2.2.2 (by decide) (by decide)
      (by decide) (by decide) (by decide) (by decide)).1,
   ((c3_pattern_priority "plain text".data).2.2.2.2.2.2 (by decide) (by decide)
      (by decide) (by decide) (by decide) (by decide)).2⟩

theorem boundaryOk_of_bsFree (tail x : JStr) (hx : bsFree x = true) :
    boundaryOk ('\\' :: tail) x = true :=
  boundaryOk_of_all_ne '\\' tail x hx

/-- C4: the unescape step decodes the escape sequences for percent,
less-than, greater-than and ampersand, unescapes escaped forward slashes
and unescapes escaped double quotes.  For segments free of backslashes
around one occurrence of each escape form, cleanUrl returns exactly the
input with every escape decoded to its character. -/
theorem c4_unescape (a b c d e f g : JStr)
    (ha : bsFree a = true) (hb : bsFree b = true) (hc : bsFree c = true)
    (hd : bsFree d = true) (he : bsFree e = true) (hf : bsFree f = true)
    (hg : bsFree g = true) :
    cleanUrl (a ++ ("\\u0025".data ++ (b ++ ("\\u003C".data ++ (c ++ ("\\u003E".data ++ (d ++ ("\\u0026".data ++ (e ++ ("\\/".data ++ (f ++ ("\\\"".data ++ (g)))))))))))))
      = some (a ++ ("%".data ++ (b ++ ("<".data ++ (c ++ (">".data ++ (d ++ ("&".data ++ (e ++ ("/".data ++ (f ++ ("\"".data ++ (g))))))))))))) := by
  have hnil : a ++ ("\\u0025".data ++ (b ++ ("\\u003C".data ++ (c ++ ("\\u003E".data ++ (d ++ ("\\u0026".data ++ (e ++ ("\\/".data ++ (f ++ ("\\\"".data ++ (g)))))))))))) ≠ [] := by
    intro h0
    have h1 := (List.append_eq_nil.mp h0).2
    have h2 := (List.append_eq_nil.mp h1).1
    exact absurd h2 (by decide)
  rw [cleanUrl, isEmpty_eq_false_of_ne_nil _ hnil]
  simp only [Bool.false_eq_true, if_false]
  refine congrArg some ?_
  rw [cleanChain]
  rw [replAll_append_of_boundaryOk "\\u0025".data "%".data a _
        (by exact boundaryOk_of_bsFree "u0025".data a ha),
    replAll_append_fire "\\u0025".data "%".data _ (by decide),
    replAll_append_of_boundaryOk "\\u0025".data "%".data b _
        (by exact boundaryOk_of_bsFree "u0025".data b hb),
    replAll_append_of_boundaryOk "\\u0025".data "%".data ("\\u003C".data) _ (by decide),
    replAll_append_of_boundaryOk "\\u0025".data "%".data c _
        (by exact boundaryOk_of_bsFree "u0025".data c hc),
    replAll_append_of_boundaryOk "\\u0025".data "%".data ("\\u003E".data) _ (by decide),
    replAll_append_of_boundaryOk "\\u0025".data "%".data d _
        (by exact boundaryOk_of_bsFree "u0025".data d hd),
    replAll_append_of_boundaryOk "\\u0025".data "%".data ("\\u0026".data) _ (by decide),
    replAll_append_of_boundaryOk "\\u0025".data "%".data e _
        (by exact boundaryOk_of_bsFree "u0025".data e he),
    replAll_append_of_boundaryOk "\\u0025".data "%".data ("\\/".data) _ (by decide),
    replAll_append_of_boundaryOk "\\u0025".data "%".data f _
        (by exact boundaryOk_of_bsFree "u0025".data f hf),
    replAll_append_of_boundaryOk "\\u0025".data "%".data ("\\\"".data) _ (by decide),
    replAll_eq_self_of_boundaryOk "\\u0025".data "%".data g
        (by exact boundaryOk_of_bsFree "u0025".data g hg)]
  rw [replAll_append_of_boundaryOk "\\u003C".data "<".data a _
        (by exact boundaryOk_of_bsFree "u003C".data a ha),
    replAll_append_of_boundaryOk "\\u003C".data "<".data ("%".data) _ (by decide),
    replAll_append_of_boundaryOk "\\u003C".data "<".data b _
        (by exact boundaryOk_of_bsFree "u003C".data b hb),
    replAll_append_fire "\\u003C".data "<".data _ (by decide),
    replAll_append_of_boundaryOk "\\u003C".data "<".data c _
        (by exact boundaryOk_of_bsFree "u003C".data c hc),
    replAll_append_of_boundaryOk "\\u003C".data "<".data ("\\u003E".data) _ (by decide),
    replAll_append_of_boundaryOk "\\u003C".data "<".data d _
        (by exact boundaryOk_of_bsFree "u003C".data d hd),
    replAll_append_of_boundaryOk "\\u003C".data "<".data ("\\u0026".data) _ (by decide),
    replAll_append_of_boundaryOk "\\u003C".data "<".data e _
        (by exact boundaryOk_of_bsFree "u003C".data e he),
    replAll_append_of_boundaryOk "\\u003C".data "<".data ("\\/".data) _ (by decide),
    replAll_append_of_boundaryOk "\\u003C".data "<".data f _
        (by exact boundaryOk_of_bsFree "u003C".data f hf),
    replAll_append_of_boundaryOk "\\u003C".data "<".data ("\\\"".data) _ (by decide),
    replAll_eq_self_of_boundaryOk "\\u003C".data "<".data g
        (by exact boundaryOk_of_bsFree "u003C".data g hg)]
  rw [replAll_append_of_boundaryOk "\\u003E".data ">".data a _
        (by exact boundaryOk_of_bsFree "u003E".data a ha),
    replAll_append_of_boundaryOk "\\u003E".data ">".data ("%".data) _ (by decide),
    replAll_append_of_boundaryOk "\\u003E".data ">".data b _
        (by exact boundaryOk_of_bsFree "u003E".data b hb),
    replAll_append_of_boundaryOk "\\u003E".data ">".data ("<".data) _ (by decide),
    replAll_append_of_boundaryOk "\\u003E".data ">".data c _
        (by exact boundaryOk_of_bsFree "u003E".data c hc),
    replAll_append_fire "\\u003E".data ">".data _ (by decide),
    replAll_append_of_boundaryOk "\\u003E".data ">".data d _
        (by exact boundaryOk_of_bsFree "u003E".data d hd),
    replAll_append_of_boundaryOk "\\u003E".data ">".data ("\\u0026".data) _ (by decide),
    replAll_append_of_boundaryOk "\\u003E".data ">".data e _
        (by exact boundaryOk_of_bsFree "u003E".data e he),
    replAll_append_of_boundaryOk "\\u003E".data ">".data ("\\/".data) _ (by decide),
    replAll_append_of_boundaryOk "\\u003E".data ">".data f _
        (by exact boundaryOk_of_bsFree "u003E".data f hf),
    replAll_append_of_boundaryOk "\\u003E".data ">".data ("\\\"".data) _ (by decide),
    replAll_eq_self_of_boundaryOk "\\u003E".data ">".data g
        (by exact boundaryOk_of_bsFree "u003E".data g hg)]
  rw [replAll_append_of_boundaryOk "\\u0026".data "&".data a _
        (by exact boundaryOk_of_bsFree "u0026".data a ha),
    replAll_append_of_boundaryOk "\\u0026".data "&".data ("%".data) _ (by decide),
    replAll_append_of_boundaryOk "\\u0026".data "&".data b _
        (by exact boundaryOk_of_bsFree "u0026".data b hb),
    replAll_append_of_boundaryOk "\\u0026".data "&".data ("<".data) _ (by decide),
    replAll_append_of_boundaryOk "\\u0026".data "&".data c _
        (by exact boundaryOk_of_bsFree "u0026".data c hc),
    replAll_append_of_boundaryOk "\\u0026".data "&".data (">".data) _ (by decide),
    replAll_append_of_boundaryOk "\\u0026".data "&".data d _
        (by exact boundaryOk_of_bsFree "u0026".data d hd),
    replAll_append_fire "\\u0026".data "&".data _ (by decide),
    replAll_append_of_boundaryOk "\\u0026".data "&".data e _
        (by exact boundaryOk_of_bsFree "u0026".data e he),
    replAll_append_of_boundaryOk "\\u0026".data "&".data ("\\/".data) _ (by decide),
    replAll_append_of_boundaryOk "\\u0026".data "&".data f _
        (by exact boundaryOk_of_bsFree "u0026".data f hf),
    replAll_append_of_boundaryOk "\\u0026".data "&".data ("\\\"".data) _ (by decide),
    replAll_eq_self_of_boundaryOk "\\u0026".data "&".data g
        (by exact boundaryOk_of_bsFree "u0026".data g hg)]
  rw [replAll_append_of_boundaryOk "\\/".data "/".data a _
        (by exact boundaryOk_of_bsFree "/".data a ha),
    replAll_append_of_boundaryOk "\\/".data "/".data ("%".data) _ (by decide),
    replAll_append_of_boundaryOk "\\/".data "/".data b _
        (by exact boundaryOk_of_bsFree "/".data b hb),
    replAll_append_of_boundaryOk "\\/".data "/".data ("<".data) _ (by decide),
    replAll_append_of_boundaryOk "\\/".data "/".data c _
        (by exact boundaryOk_of_bsFree "/".data c hc),
    replAll_append_of_boundaryOk "\\/".data "/".data (">".data) _ (by decide),
    replAll_append_of_boundaryOk "\\/".data "/".data d _
        (by exact boundaryOk_of_bsFree "/".data d hd),
    replAll_append_of_boundaryOk "\\/".data "/".data ("&".data) _ (by decide),
    replAll_append_of_boundaryOk "\\/".data "/".data e _
        (by exact boundaryOk_of_bsFree "/".data e he),
    replAll_append_fire "\\/".data "/".data _ (by decide),
    replAll_append_of_boundaryOk "\\/".data "/".data f _
        (by exact boundaryOk_of_bsFree "/".data f hf),
    replAll_append_of_boundaryOk "\\/".data "/".data ("\\\"".data) _ (by decide),
    replAll_eq_self_of_boundaryOk "\\/".data "/".data g
        (by exact boundaryOk_of_bsFree "/".data g hg)]
  rw [replAll_append_of_boundaryOk "\\\"".data "\"".data a _
        (by exact boundaryOk_of_bsFree "\"".data a ha),
    replAll_append_of_boundaryOk "\\\"".data "\"".data ("%".data) _ (by decide),
    replAll_append_of_boundaryOk "\\\"".data "\"".data b _
        (by exact boundaryOk_of_bsFree "\"".data b hb),
    replAll_append_of_boundaryOk "\\\"".data "\"".data ("<".data) _ (by decide),
    replAll_append_of_boundaryOk "\\\"".data "\"".data c _
        (by exact boundaryOk_of_bsFree "\"".data c hc),
    replAll_append_of_boundaryOk "\\\"".data "\"".data (">".data) _ (by decide),
    replAll_append_of_boundaryOk "\\\"".data "\"".data d _
        (by exact boundaryOk_of_bsFree "\"".data d hd),
    replAll_append_of_boundaryOk "\\\"".data "\"".data ("&".data) _ (by decide),
    replAll_append_of_boundaryOk "\\\"".data "\"".data e _
        (by exact boundaryOk_of_bsFree "\"".data e he),
    replAll_append_of_boundaryOk "\\\"".data "\"".data ("/".data) _ (by decide),
    replAll_append_of_boundaryOk "\\\"".data "\"".data f _
        (by exact boundaryOk_of_bsFree "\"".data f hf),
    replAll_append_fire "\\\"".data "\"".data _ (by decide),
    replAll_eq_self_of_boundaryOk "\\\"".data "\"".data g
        (by exact boundaryOk_of_bsFree "\"".data g hg)]

/-- Witness for C4 at a concrete escaped value containing all six escape
forms; they decode to percent, angle brackets, ampersand, slash and quote. -/
theorem c4_witness :
    cleanUrl ("https:".data ++ ("\\u0025".data ++ ("cdn".data ++ ("\\u003C".data ++
        ("x".data ++ ("\\u003E".data ++ ("y".data ++ ("\\u0026".data ++
        ("q".data ++ ("\\/".data ++ ("r".data ++ ("\\\"".data ++ ".mp4".data))))))))))))
      = some ("https:".data ++ ("%".data ++ ("cdn".data ++ ("<".data ++
        ("x".data ++ (">".data ++ ("y".data ++ ("&".data ++
        ("q".data ++ ("/".data ++ ("r".data ++ ("\"".data ++ ".mp4".data)))))))))))) :=
  c4_unescape "https:".data "cdn".data "x".data "y".data "q".data "r".data ".mp4".data
    (by decide) (by decide) (by decide) (by decide) (by decide) (by decide) (by decide)

end FbVideoApi
